import Mathlib

/-!
Verification of the batch normalization and trend-classification engine of
`src/new.py` (stock review / batch trend tracking script).

The Python source is shallowly embedded: cells are `Option String`
(`none` stands for a pandas NaN / missing value), prices are exact
rationals `ℚ`, fallible code returns `Option` / `Except`.  Definitions
follow the source line by line; the names of the source functions are
kept where Lean allows it.
-/

set_option maxRecDepth 4000

/-! ### Python string primitives

Helpers modelling the exact semantics of the Python string operations the
source uses: `str.replace`, `str.strip`, `str.split`, substring test
(`in`), `str.lower`.  All work on `List Char` (the logical model of
`String`) by structural recursion so that concrete instances reduce in
the kernel. -/

/-- One scanning pass of Python `str.replace`: left-to-right,
non-overlapping.  The fuel argument (initialised with the length of the
list) only bounds the number of steps; each step consumes at least one
character, so the fuel never runs out for a non-empty pattern. -/
def pyReplaceAux (pat rep : List Char) : ℕ → List Char → List Char
  | 0, l => l
  | _ + 1, [] => []
  | fuel + 1, c :: rest =>
    if pat.isPrefixOf (c :: rest) then
      rep ++ pyReplaceAux pat rep fuel ((c :: rest).drop pat.length)
    else
      c :: pyReplaceAux pat rep fuel rest

/-- Python `s.replace(pat, rep)` (for the non-empty patterns used in the
source). -/
def pyReplace (s pat rep : String) : String :=
  if pat.data = [] then s else ⟨pyReplaceAux pat.data rep.data s.data.length s.data⟩

/-- Python `str.strip()` on the character list: drop whitespace from both
ends. -/
def pyStripL (l : List Char) : List Char :=
  ((l.dropWhile Char.isWhitespace).reverse.dropWhile Char.isWhitespace).reverse

/-- Python `s.strip()`. -/
def pyStrip (s : String) : String := ⟨pyStripL s.data⟩

/-- Python `s.strip('_')` (strip a given character from both ends), used
for the header label `.strip("_")`. -/
def pyStripCharL (ch : Char) (l : List Char) : List Char :=
  ((l.dropWhile (· = ch)).reverse.dropWhile (· = ch)).reverse

/-- Python `s.split(sep)` for a one-character separator; always returns a
non-empty list of (possibly empty) parts. -/
def splitOnCharL (sep : Char) : List Char → List (List Char)
  | [] => [[]]
  | c :: rest =>
    match splitOnCharL sep rest with
    | [] => [[]]
    | h :: t => if c = sep then [] :: h :: t else (c :: h) :: t

/-- Python `sub in s` on character lists (substring test). -/
def subOf (pat : List Char) : List Char → Bool
  | [] => pat.isEmpty
  | c :: rest => pat.isPrefixOf (c :: rest) || subOf pat rest

/-- Python `pat in s` for strings. -/
def strContains (s pat : String) : Bool := subOf pat.data s.data

/-- Python `s.lower()` restricted to ASCII letters (the source only relies
on ASCII lowering; CJK characters are unaffected, as in Python). -/
def lowerAscii (s : String) : String := ⟨s.data.map Char.toLower⟩

/-- Python `s.split(sub)[0]` for the two-character separator `" ["`: the
part of the string before the first occurrence of `sub`. -/
def takeBeforeSub (sub : List Char) : List Char → List Char
  | [] => []
  | c :: rest =>
    if sub.isPrefixOf (c :: rest) then [] else c :: takeBeforeSub sub rest

/-- Numeric value of a list of decimal digit characters. -/
def digitsVal (l : List Char) : ℕ := l.foldl (fun a c => a * 10 + (c.toNat - 48)) 0

/-- All characters are decimal digits. -/
def allDigits (l : List Char) : Bool := l.all Char.isDigit

/-- Decimal representation of a natural number left-padded with zeros to
width `w` (Python `strftime` zero padding). -/
def natPad (w n : ℕ) : String :=
  let s := toString n
  if s.data.length < w then ⟨List.replicate (w - s.data.length) '0' ++ s.data⟩ else s

/-- Python `str(b)` for a boolean. -/
def pyBoolStr (b : Bool) : String := if b then "True" else "False"

/-! ### Python float parsing

`pyFloat` models `float(s)` (and the numeric parsing of
`pd.to_numeric`) on finite decimal literals: optional sign, decimal
digits with at most one point, optional exponent.  The special literals
`inf` / `nan` and PEP-515 underscores are not modelled; no cell in scope
of the claims uses them, and every claim below uses the same parser on
both the code side and the spec side. -/

/-- Split a mantissa `l` into integer and fractional digit lists; fails if
there is more than one decimal point or a non-digit character. -/
def parseMantissa (l : List Char) : Option (List Char × List Char) :=
  match splitOnCharL '.' l with
  | [ip] => if allDigits ip then some (ip, []) else none
  | [ip, fp] => if allDigits ip && allDigits fp then some (ip, fp) else none
  | _ => none

/-- Parse an (optionally signed) decimal integer exponent. -/
def parseExp (l : List Char) : Option ℤ :=
  match l with
  | '+' :: d => if allDigits d && decide (d ≠ []) then some (digitsVal d) else none
  | '-' :: d => if allDigits d && decide (d ≠ []) then some (-(digitsVal d : ℤ)) else none
  | d => if allDigits d && decide (d ≠ []) then some (digitsVal d) else none

/-- Python `float(s)` on a finite decimal literal, as an exact rational. -/
def pyFloat (s : String) : Option ℚ :=
  let cs := (s.data.map Char.toLower)
  let sb : ℚ × List Char :=
    match cs with
    | '+' :: t => (1, t)
    | '-' :: t => (-1, t)
    | t => (1, t)
  let sgn := sb.1
  let body := sb.2
  match splitOnCharL 'e' body with
  | [mant] =>
    match parseMantissa mant with
    | some (ip, fp) =>
      if ip = [] ∧ fp = [] then none
      else some (sgn * ((digitsVal ip : ℚ) + (digitsVal fp : ℚ) / (10 : ℚ) ^ fp.length))
    | none => none
  | [mant, ex] =>
    match parseMantissa mant, parseExp ex with
    | some (ip, fp), some e =>
      if ip = [] ∧ fp = [] then none
      else some (sgn * ((digitsVal ip : ℚ) + (digitsVal fp : ℚ) / (10 : ℚ) ^ fp.length) * (10 : ℚ) ^ e)
    | _, _ => none
  | _ => none

/-! ### Float formatting

`fmt2` models the Python f-string directive `{x:.2f}` (two fractional
digits, round half to even) used in the detail traces of the two
uptrend checkers. -/

/-- Round to the nearest integer, ties to even (the rounding of `printf`
style formatting for values the binary double represents exactly). -/
def roundHalfEven (x : ℚ) : ℤ :=
  let f := ⌊x⌋
  let r := x - (f : ℚ)
  if r < 1 / 2 then f
  else if 1 / 2 < r then f + 1
  else if f % 2 = 0 then f else f + 1

/-- Python two-decimal fixed-point formatting of a rational. -/
def fmt2 (q : ℚ) : String :=
  let n := (roundHalfEven (|q| * 100)).toNat
  (if q < 0 then "-" else "") ++ toString (n / 100) ++ "." ++ natPad 2 (n % 100)

/-! ### Value Sanitizer: `make_arrow_safe` (src/new.py lines 80-103)

A pandas `DataFrame` is modelled as a list of labelled columns; a column
is either an object (text) column of `Option String` cells or a numeric
column of `Option ℚ` cells (`none` is NaN). -/

/-- The null-marker literals replaced by NaN (line 84). -/
def null_markers : List String :=
  ["-", "--", "—", "空值", "null", "None", "", "NaN", "nan", "无"]

/-- The numeric-hint keywords (line 92). -/
def numeric_hint : List String :=
  ["%", "斜率", "占比", "涨", "跌", "价", "均线", "close", "price"]

/-- A pandas column: object dtype or numeric dtype. -/
inductive PCol where
  | obj (cells : List (Option String))
  | num (cells : List (Option ℚ))
deriving DecidableEq

/-- A pandas DataFrame: labelled columns. -/
structure PFrame where
  cols : List (String × PCol)
deriving DecidableEq

/-- Line 84: `df.replace([null markers], np.nan)` on one object cell. -/
def replaceMarkersCell (c : Option String) : Option String :=
  match c with
  | none => none
  | some s => if s ∈ null_markers then none else some s

/-- Line 84 on one column (numeric columns are unaffected: the markers are
strings and `replace` matches by equality). -/
def replaceMarkersCol : PCol → PCol
  | .obj cells => .obj (cells.map replaceMarkersCell)
  | .num cells => .num cells

/-- Lines 86-88: for object columns,
`astype(str).str.strip().replace(\x7b'nan': nan, 'None': nan\x7d)` on one
cell.  `astype(str)` turns NaN into the string "nan", which the final
`replace` maps back to NaN. -/
def stripCell (c : Option String) : Option String :=
  match c with
  | none => none
  | some s =>
    let t := pyStrip s
    if t = "nan" ∨ t = "None" then none else some t

/-- Lines 86-88 on one column. -/
def stripTextCol : PCol → PCol
  | .obj cells => .obj (cells.map stripCell)
  | .num cells => .num cells

/-- Line 95: `any(k in str(col) for k in numeric_hint)`. -/
def hasNumericHint (label : String) : Bool := numeric_hint.any fun k => strContains label k

/-- Line 96: `pd.to_numeric(df[col], errors='coerce')`: an object column
becomes numeric, unparseable cells become NaN; a numeric column is
unchanged. -/
def toNumericCol : PCol → PCol
  | .obj cells => .num (cells.map fun c => c.bind pyFloat)
  | .num cells => .num cells

/-- Lines 93-96: numeric coercion applied only to hint-labelled columns. -/
def numericHintCol (label : String) (col : PCol) : PCol :=
  if hasNumericHint label then toNumericCol col else col

/-- Lines 100-102: final `astype(str).replace('nan': nan)` pass over the
remaining object columns. -/
def finalCleanCell (c : Option String) : Option String :=
  match c with
  | none => none
  | some s => if s = "nan" then none else some s

/-- Lines 100-102 on one column. -/
def finalCleanCol : PCol → PCol
  | .obj cells => .obj (cells.map finalCleanCell)
  | .num cells => .num cells

/-- The whole sanitizer pipeline on one labelled column. -/
def makeArrowSafeCol (label : String) (col : PCol) : PCol :=
  finalCleanCol (numericHintCol label (stripTextCol (replaceMarkersCol col)))

/-- `make_arrow_safe(df)` (src/new.py lines 80-103). -/
def make_arrow_safe (df : PFrame) : PFrame :=
  ⟨df.cols.map fun lc => (lc.1, makeArrowSafeCol lc.1 lc.2)⟩

/-- Decidable cleanliness check used by the amended idempotence claim:
no object cell of the frame holds a null-marker string. -/
def colMarkerFree : PCol → Bool
  | .obj cells => cells.all fun c =>
      match c with
      | none => true
      | some s => decide (s ∉ null_markers)
  | .num _ => true

/-- All object cells of the frame avoid the null-marker set. -/
def frameMarkerFree (df : PFrame) : Bool := df.cols.all fun lc => colMarkerFree lc.2

/-! ### Trend checkers (src/new.py lines 105-127) -/

/-- `check_strict_continuous_up(closes, close_days)` (lines 105-115).
Strict continuous rise: every close must exceed the previous one.  The
boolean is `all(closes[i] > closes[i-1] for i in range(1, len(closes)))`;
the string is the joined per-day detail trace. -/
def check_strict_continuous_up (closes : List ℚ) (close_days : ℕ) : Bool × String :=
  if closes.length < close_days then
    (false, "数据不足: " ++ toString closes.length ++ "/" ++ toString close_days)
  else if closes.any fun price => decide (price ≤ 0) then
    (false, "存在无效价格(<=0)")
  else
    let pairs := closes.zip closes.tail
    let is_up := pairs.all fun p => decide (p.1 < p.2)
    let details := pairs.enum.map fun ip =>
      "第" ++ toString (ip.1 + 2) ++ "日:" ++ fmt2 ip.2.2 ++ " > 第" ++ toString (ip.1 + 1) ++
        "日:" ++ fmt2 ip.2.1 ++ " = " ++ pyBoolStr (decide (ip.2.1 < ip.2.2))
    (is_up, String.intercalate "\n" details)

/-- `check_ma_above_continuous_up(closes, ma_values, close_days)`
(lines 117-127).  The Python loop indexes `ma_values[i]` for
`i in range(len(closes))`; when `closes` is longer than `ma_values`
(possible only past the two guards) that raises `IndexError`, modelled
as `.error`. -/
def check_ma_above_continuous_up (closes ma_values : List ℚ) (close_days : ℕ) :
    Except String (Bool × String) :=
  if closes.length < close_days ∨ ma_values.length < close_days then
    .ok (false, "数据不足: 收盘" ++ toString closes.length ++ "/均线" ++
      toString ma_values.length ++ "/" ++ toString close_days)
  else if closes.any fun price => decide (price ≤ 0) then
    .ok (false, "存在无效价格(<=0)")
  else if closes.length ≤ ma_values.length then
    let pairs := closes.zip ma_values
    let is_above := pairs.all fun p => decide (p.2 ≤ p.1)
    let details := pairs.enum.map fun ip =>
      "第" ++ toString (ip.1 + 1) ++ "日: 收盘" ++ fmt2 ip.2.1 ++ " ≥ 均线" ++ fmt2 ip.2.2 ++
        " = " ++ pyBoolStr (decide (ip.2.2 ≤ ip.2.1))
    .ok (is_above, String.intercalate "\n" details)
  else
    .error "IndexError"

/-! ### Trend classification of one stock (src/new.py lines 523-553)

The module-level batch loop windows the series, dispatches on the mode,
computes the least-squares slope percentage and builds the reason list
and the pass flag.  `slopePerc` is the exact rational solution of the
degree-1 ordinary least squares fit that `np.polyfit` computes
numerically; for a window of length ≥ 2 the normal-equation denominator
is positive, so the fit never fails (matching the reachable behaviour of
the `try` block at lines 540-545). -/

/-- The trend mode selected in the sidebar (line 53). -/
inductive TrendMode where
  | strict
  | ma_above
deriving DecidableEq

/-- One classification record of the batch loop (lines 547-553 and the
fields feeding lines 556-565). -/
structure RowResult where
  is_up : Bool
  slope_perc : Option ℚ
  up_details : String
  reason : List String
  passed : Bool
deriving DecidableEq

/-- Python `l[-k:]` (the last `k` elements; for `k = 0` Python returns
the whole list, since `l[-0:] = l[0:]`). -/
def pyLastSlice (l : List ℚ) (k : ℕ) : List ℚ :=
  if k = 0 then l else l.drop (l.length - k)

/-- Lines 539-542: OLS slope of `(0..n-1, cw)` normalised by the window
mean, times 100. -/
def slopePerc (cw : List ℚ) : ℚ :=
  let n : ℚ := cw.length
  let xs := (List.range cw.length).map fun i => (i : ℚ)
  let sx := xs.sum
  let sxx := (xs.map fun x => x * x).sum
  let sy := cw.sum
  let sxy := ((xs.zip cw).map fun p => p.1 * p.2).sum
  let slope := (n * sxy - sx * sy) / (n * sxx - sx * sx)
  slope / (sy / n) * 100

/-- Lines 547-553: reason list and pass flag from the classification
pieces (`np.isnan(slope_perc)` is `slope = none`). -/
def mkRowResult (is_up : Bool) (slope : Option ℚ) (up_details : String)
    (slope_threshold : ℚ) : RowResult :=
  let reason :=
    (if is_up then [] else [up_details]) ++
      (match slope with
       | none => []
       | some s => if s < slope_threshold then ["斜率过小(" ++ fmt2 s ++ "%)"] else [])
  { is_up := is_up, slope_perc := slope, up_details := up_details,
    reason := reason, passed := reason.isEmpty }

/-- Lines 523-553: classification of one stock's extracted series.  The
`.error` case only arises from an `IndexError` inside
`check_ma_above_continuous_up` (impossible at this call site, where both
windows have length `close_days`). -/
def classify (mode : TrendMode) (closes ma_values : List ℚ) (close_days : ℕ)
    (slope_threshold : ℚ) : Except String RowResult :=
  if closes.length < close_days ∨ ma_values.length < close_days then
    .ok (mkRowResult false none
      ("数据不足: " ++ toString closes.length ++ "/" ++ toString close_days) slope_threshold)
  else
    let closes_for_check := pyLastSlice closes close_days
    let ma_for_check := pyLastSlice ma_values close_days
    let step : Except String (Bool × String) :=
      match mode with
      | .strict => .ok (check_strict_continuous_up closes_for_check close_days)
      | .ma_above => check_ma_above_continuous_up closes_for_check ma_for_check close_days
    step.map fun r => mkRowResult r.1 (some (slopePerc closes_for_check)) r.2 slope_threshold

/-! ### Header Resolver (src/new.py lines 363-385) and column
classification (lines 426-432) -/

/-- `ffill(axis=1)` on one header row: a NaN cell inherits the closest
non-NaN value to its left. -/
def ffillRow : List (Option String) → Option String → List (Option String)
  | [], _ => []
  | c :: rest, carry =>
    match c with
    | none => carry :: ffillRow rest carry
    | some s => some s :: ffillRow rest (some s)

/-- Line 365: horizontal forward fill of the header rows. -/
def ffillGrid (rows : List (List (Option String))) : List (List (Option String)) :=
  rows.map fun r => ffillRow r none

/-- Lines 368-384, the loop over `header_df.values.T` with the running
`current_prefix` state (here `pfx`). -/
def resolveGo : List (List (Option String)) → String → List String
  | [], _ => []
  | col :: rest, pfx =>
    let col_strs := col.filterMap fun c =>
      match c with
      | none => none
      | some s => if s = "nan" then none else some (pyStrip s)
    match col_strs with
    | [] => "" :: resolveGo rest pfx
    | c0 :: _ =>
      let pfx2 :=
        if strContains c0 "收盘价" then "收盘价"
        else if strContains c0 "5日均线" || strContains c0 "均线" then "5日均线"
        else pfx
      let date_part := if col_strs.length > 1 then col_strs.getLastD "" else c0
      let merged :=
        if pfx2 ≠ "" ∧ strContains c0 "undefined" then pfx2 ++ "_" ++ date_part
        else ⟨pyStripCharL '_' (String.intercalate "_" col_strs).data⟩
      merged :: resolveGo rest pfx2

/-- Lines 363-385: resolved column labels of a multi-row header grid
(`none` cells are the NaNs that `pd.read_excel(header=None)` produces
for blank / merged cells). -/
def resolveColumns (headerRows : List (List (Option String))) : List String :=
  resolveGo (ffillGrid headerRows).transpose ""

/-- Column category assigned by lines 426-432 (and identically by
`build_stock_data_map_from_df`, lines 183-190). -/
inductive ColCat where
  | price
  | ma
  | other
deriving DecidableEq

/-- Lines 427-432: classification of one resolved label. -/
def classifyLabel (c : String) : ColCat :=
  let col_lower := lowerAscii c
  if strContains col_lower "收盘价" || strContains col_lower "close" then .price
  else if strContains col_lower "均线" || strContains col_lower "ma" then .ma
  else .other

/-! ### Batch-date selection (src/new.py lines 434-455) -/

/-- A Python `datetime.date` as (year, month, day); comparison is
lexicographic. -/
abbrev PyDate := ℕ × ℕ × ℕ

/-- Python `date` strict comparison (lexicographic). -/
def dateLt (a b : PyDate) : Bool :=
  decide (a.1 < b.1) ||
    (decide (a.1 = b.1) &&
      (decide (a.2.1 < b.2.1) || (decide (a.2.1 = b.2.1) && decide (a.2.2 < b.2.2))))

/-- Python `date` non-strict comparison. -/
def dateLe (a b : PyDate) : Bool := dateLt a b || decide (a = b)

/-- Gregorian leap year (as `datetime` validates day ranges). -/
def isLeapYear (y : ℕ) : Bool :=
  decide (y % 4 = 0) && (decide (y % 100 ≠ 0) || decide (y % 400 = 0))

/-- Days in a month of a given year. -/
def daysInMonth (y m : ℕ) : ℕ :=
  if m = 2 then (if isLeapYear y then 29 else 28)
  else if m = 4 ∨ m = 6 ∨ m = 9 ∨ m = 11 then 30
  else 31

/-- `datetime` range validation applied after the `strptime` regex match
(month and day lower bounds are enforced by the regex itself). -/
def validYMD (y m d : ℕ) : Bool := decide (1 ≤ y) && decide (d ≤ daysInMonth y m)

/-- The `strptime` directive `%Y`: exactly four digits. -/
def year4OK (l : List Char) : Bool := decide (l.length = 4) && allDigits l

/-- The `strptime` directive `%m`: one or two digits with value 1..12
(zero-padded or not, but "0" and "00" are rejected). -/
def monthReOK (l : List Char) : Bool :=
  allDigits l && decide (1 ≤ l.length) && decide (l.length ≤ 2) &&
    decide (1 ≤ digitsVal l) && decide (digitsVal l ≤ 12)

/-- The `strptime` directive `%d`: one or two digits with value 1..31. -/
def dayReOK (l : List Char) : Bool :=
  allDigits l && decide (1 ≤ l.length) && decide (l.length ≤ 2) &&
    decide (1 ≤ digitsVal l) && decide (digitsVal l ≤ 31)

/-- `strptime` with a format `%Y<sep>%m<sep>%d` for a literal single
separator character. -/
def parseSepFmt (sep : Char) (l : List Char) : Option PyDate :=
  match splitOnCharL sep l with
  | [ys, ms, ds] =>
    if year4OK ys && monthReOK ms && dayReOK ds &&
        validYMD (digitsVal ys) (digitsVal ms) (digitsVal ds) then
      some (digitsVal ys, digitsVal ms, digitsVal ds)
    else none
  | _ => none

/-- A two-digit month field (the alternatives `1[0-2]` and `0[1-9]` of the
`%m` regex). -/
def month2OK (l : List Char) : Bool :=
  decide (l.length = 2) && allDigits l && decide (1 ≤ digitsVal l) && decide (digitsVal l ≤ 12)

/-- `strptime` with format `%Y%m%d`: four year digits, then a greedy
month match (two digits tried before one, with regex backtracking), then
the day taking the entire remainder. -/
def parseYmd8 (l : List Char) : Option PyDate :=
  if decide (4 ≤ l.length) && allDigits (l.take 4) then
    let y := digitsVal (l.take 4)
    let rest := l.drop 4
    let pick : Option (ℕ × ℕ) :=
      if month2OK (rest.take 2) && dayReOK (rest.drop 2) then
        some (digitsVal (rest.take 2), digitsVal (rest.drop 2))
      else if decide (rest.take 1 ≠ []) && monthReOK (rest.take 1) && dayReOK (rest.drop 1) then
        some (digitsVal (rest.take 1), digitsVal (rest.drop 1))
      else none
    match pick with
    | some (m, d) => if validYMD y m d then some (y, m, d) else none
    | none => none
  else none

/-- Lines 442-448: the four formats tried in order
`%Y.%m.%d`, `%Y-%m-%d`, `%Y%m%d`, `%Y/%m/%d`; the first success wins. -/
def tryParseDateFormatsL (l : List Char) : Option PyDate :=
  match parseSepFmt '.' l with
  | some d => some d
  | none =>
    match parseSepFmt '-' l with
    | some d => some d
    | none =>
      match parseYmd8 l with
      | some d => some d
      | none => parseSepFmt '/' l

/-- Lines 437-448 for one column label: split on `_`; only labels with
more than one segment are considered; take the last segment, cut a
trailing `" ["`-suffix, strip, and try the four date formats. -/
def extractColDate (c : String) : Option PyDate :=
  let parts := splitOnCharL '_' c.data
  if parts.length > 1 then
    tryParseDateFormatsL (pyStripL (takeBeforeSub [' ', '['] (parts.getLastD [])))
  else none

/-- The accumulator loop of lines 435-448 (`dates.append(...)`). -/
def collectBatchDates : List String → List PyDate → List PyDate
  | [], acc => acc
  | c :: rest, acc =>
    match extractColDate c with
    | some d => collectBatchDates rest (acc ++ [d])
    | none => collectBatchDates rest acc

/-- Python `max` over a non-empty list: keep the current value, replace
when a later item compares strictly greater. -/
def pyMaxDate (l : List PyDate) : Option PyDate :=
  match l with
  | [] => none
  | h :: t => some (t.foldl (fun cur x => if dateLt cur x then x else cur) h)

/-- `strftime("%Y-%m-%d")`. -/
def formatDateISO (d : PyDate) : String :=
  natPad 4 d.1 ++ "-" ++ natPad 2 d.2.1 ++ "-" ++ natPad 2 d.2.2

/-- Lines 434-455: the batch date (formatted) and whether the
current-date fallback warning was issued. -/
def select_batch_date (close_cols : List String) (today : PyDate) : String × Bool :=
  match pyMaxDate (collectBatchDates close_cols []) with
  | some m => (formatDateISO m, false)
  | none => (formatDateISO today, true)

/-- The claim-side date extraction (no underscore gate): the date is read
from the last underscore-separated segment of every PRICE label, which
for a label without `_` is the label itself.  Kept separate from
`extractColDate` to compare the claim's wording with the code. -/
def claimColDate (c : String) : Option PyDate :=
  let parts := splitOnCharL '_' c.data
  tryParseDateFormatsL (pyStripL (takeBeforeSub [' ', '['] (parts.getLastD [])))

/-! ### Series Builder (src/new.py lines 484-521, identically lines
200-240 in `build_stock_data_map_from_df`) -/

/-- The body of the extraction loop for one cell: skip NaN, clean the
string (`,`, `—`, `--` removed, then stripped), skip the residual null
literals, parse as float, keep only strictly-positive values
(lines 486-497). -/
def parseCell (cell : Option String) : Option ℚ :=
  match cell with
  | none => none
  | some v =>
    let vs := pyStrip (pyReplace (pyReplace (pyReplace v "," "") "—" "") "--" "")
    if vs = "" ∨ vs = "NaN" ∨ vs = "None" ∨ vs = "null" then none
    else
      match pyFloat vs with
      | none => none
      | some price => if 0 < price then some price else none

/-- The `closes.append(price)` loop (lines 485-497), accumulator style. -/
def extractSeriesLoop : List (Option String) → List ℚ → List ℚ
  | [], acc => acc
  | cell :: rest, acc =>
    match parseCell cell with
    | some price => extractSeriesLoop rest (acc ++ [price])
    | none => extractSeriesLoop rest acc

/-- Lines 485-498: scan the row's cells under the PRICE (or MA) columns
in left-to-right order, then `closes[::-1]`. -/
def extractSeries (cells : List (Option String)) : List ℚ :=
  (extractSeriesLoop cells []).reverse

/-- Python slice `l[a:b]`. -/
def pySlice (l : List ℚ) (a b : ℕ) : List ℚ := (l.take b).drop a

/-- `np.mean` of a window, exactly. -/
def qMean (l : List ℚ) : ℚ := l.sum / (l.length : ℚ)

/-- Lines 519-521 (and 236-240): with no MA columns, synthesize one
moving-average value per price index as the trailing mean over a window
of `min(5, len(closes))`; the start index is `max(0, i - ma_days + 1)`
computed over the integers. -/
def synthesizeMA (closes : List ℚ) : List ℚ :=
  if closes.length > 0 then
    let ma_days := min 5 closes.length
    (List.range closes.length).map fun (i : ℕ) =>
      qMean (pySlice closes (max 0 ((i : ℤ) - (ma_days : ℤ) + 1)).toNat (i + 1))
  else []

/-- Lines 502-521: the MA series of one row — extracted from the MA
column cells when MA columns exist, synthesized otherwise. -/
def rowMaValues (maCells : List (Option String)) (closes : List ℚ) : List ℚ :=
  if maCells.isEmpty then synthesizeMA closes else extractSeries maCells

/-! ## Helper lemmas -/

/-- The adjacent-pair scan of `check_strict_continuous_up` is the
strictly-increasing chain predicate. -/
theorem zipAdj_all_iff_chain (l : List ℚ) :
    (((l.zip l.tail).all fun p => decide (p.1 < p.2)) = true) ↔ List.Chain' (· < ·) l := by
  induction l with
  | nil => simp
  | cons a t ih =>
    cases t with
    | nil => simp
    | cons b t2 =>
      simp only [List.tail_cons, List.zip_cons_cons, List.all_cons, Bool.and_eq_true,
        decide_eq_true_eq, List.chain'_cons] at *
      exact and_congr Iff.rfl ih

/-- Boolean form of the previous lemma. -/
theorem zipAdj_all_eq_chain (l : List ℚ) :
    ((l.zip l.tail).all fun p => decide (p.1 < p.2)) = decide (List.Chain' (· < ·) l) := by
  cases h : (l.zip l.tail).all fun p => decide (p.1 < p.2) with
  | false =>
    symm
    rw [decide_eq_false_iff_not]
    intro hc
    rw [(zipAdj_all_iff_chain l).mpr hc] at h
    cases h
  | true =>
    symm
    rw [decide_eq_true_eq]
    exact (zipAdj_all_iff_chain l).mp h

/-- A strictly-positive list has no element `≤ 0`. -/
theorem any_nonpos_eq_false (l : List ℚ) (hpos : (l.all fun x => decide (0 < x)) = true) :
    (l.any fun price => decide (price ≤ 0)) = false := by
  rw [List.any_eq_false]
  intro x hx
  have h0 := List.all_eq_true.mp hpos x hx
  simp only [decide_eq_true_eq] at h0 ⊢
  exact not_le.mpr h0

/-- `check_strict_continuous_up` on a long-enough strictly-positive list
computes the chain predicate over the whole list. -/
theorem check_strict_spec (closes : List ℚ) (d : ℕ) (hlen : d ≤ closes.length)
    (hpos : (closes.all fun x => decide (0 < x)) = true) :
    (check_strict_continuous_up closes d).1 = decide (List.Chain' (· < ·) closes) := by
  unfold check_strict_continuous_up
  rw [if_neg (by omega), any_nonpos_eq_false closes hpos]
  simp only [Bool.false_eq_true, if_false]
  exact zipAdj_all_eq_chain closes

/-- The pointwise zip scan of `check_ma_above_continuous_up` is the
indexwise comparison, provided the first list is no longer. -/
theorem zip_all_le_eq (closes ma : List ℚ) (h : closes.length ≤ ma.length) :
    ((closes.zip ma).all fun p => decide (p.2 ≤ p.1)) =
      decide (∀ i < closes.length, ma.getD i 0 ≤ closes.getD i 0) := by
  induction closes generalizing ma with
  | nil => simp
  | cons c ct ih =>
    cases ma with
    | nil => simp at h
    | cons m mt =>
      rw [List.zip_cons_cons, List.all_cons, ih mt (by simpa using h), ← Bool.decide_and]
      rw [decide_eq_decide]
      constructor
      · rintro ⟨h1, h2⟩ i hi
        cases i with
        | zero => simpa using h1
        | succ j =>
          simp only [List.getD_cons_succ]
          exact h2 j (by simpa using hi)
      · intro hall
        refine ⟨by simpa using hall 0 (by simp), fun j hj => ?_⟩
        have := hall (j + 1) (by simpa using hj)
        simpa using this

/-! ## C3: the STRICT predicate -/

/-- C3: in STRICT mode, for every window of at least `close_days`
strictly-positive closes, `is_up` is true iff every adjacent pair rises
strictly; the two worked spec examples hold concretely, with the detail
trace flagging the day-3 decrease. -/
theorem c3_strict_pred :
    (∀ (closes : List ℚ) (close_days : ℕ), close_days ≤ closes.length →
        (closes.all fun x => decide (0 < x)) = true →
        ((check_strict_continuous_up closes close_days).1 = true ↔
          List.Chain' (· < ·) closes)) ∧
      (check_strict_continuous_up [10, 11, 12, 13, 14] 5).1 = true ∧
      (check_strict_continuous_up [10, 11, 10, 13, 14] 5).1 = false ∧
      strContains (check_strict_continuous_up [10, 11, 10, 13, 14] 5).2
        "第3日:10.00 > 第2日:11.00 = False" = true := by
  refine ⟨?_, by decide, by decide, by with_unfolding_all decide⟩
  intro closes d hlen hpos
  rw [check_strict_spec closes d hlen hpos]
  simp

/-- Witness for C3 at the first spec example. -/
theorem c3_strict_pred_witness :
    (5 ≤ ([10, 11, 12, 13, 14] : List ℚ).length) ∧
      ((check_strict_continuous_up [10, 11, 12, 13, 14] 5).1 = true ↔
        List.Chain' (· < ·) ([10, 11, 12, 13, 14] : List ℚ)) :=
  ⟨by decide, c3_strict_pred.1 [10, 11, 12, 13, 14] 5 (by decide) (by decide)⟩

/-! ## C10: no windowing inside `check_strict_continuous_up` -/

/-- C10: called directly on a sequence strictly longer than `close_days`,
`check_strict_continuous_up` evaluates the strict-increase predicate over
all adjacent pairs of the whole sequence; concretely
`[5,1,2,3,4,5,6]` with `close_days = 5` yields `is_up = false` although
its last five elements rise strictly, while the batch-loop call site
(`classify`), which windows first, reports `is_up = true` on the same
series. -/
theorem c10_whole_sequence :
    (∀ (closes : List ℚ) (close_days : ℕ), close_days < closes.length →
        (closes.all fun x => decide (0 < x)) = true →
        (check_strict_continuous_up closes close_days).1 =
          decide (List.Chain' (· < ·) closes)) ∧
      (check_strict_continuous_up [5, 1, 2, 3, 4, 5, 6] 5).1 = false ∧
      List.Chain' (· < ·) (([5, 1, 2, 3, 4, 5, 6] : List ℚ).drop 2) ∧
      ((classify .strict [5, 1, 2, 3, 4, 5, 6] [1, 1, 1, 1, 1, 1, 1] 5 1).toOption.map
          fun r => r.is_up) = some true := by
  refine ⟨?_, by decide, ?_, by decide⟩
  · intro closes d hlen hpos
    exact check_strict_spec closes d (by omega) hpos
  · norm_num [List.chain'_cons]

/-- Witness for C10's universal part at the concrete series. -/
theorem c10_whole_sequence_witness :
    (5 < ([5, 1, 2, 3, 4, 5, 6] : List ℚ).length) ∧
      (check_strict_continuous_up [5, 1, 2, 3, 4, 5, 6] 5).1 =
        decide (List.Chain' (· < ·) ([5, 1, 2, 3, 4, 5, 6] : List ℚ)) :=
  ⟨by decide, c10_whole_sequence.1 [5, 1, 2, 3, 4, 5, 6] 5 (by decide) (by decide)⟩

/-! ## C4: the MA_ABOVE predicate -/

/-- C4: in MA_ABOVE mode, for positionally-aligned windows of at least
`close_days` strictly-positive closes and at least `close_days`
moving-average values (the closes window no longer than the ma window,
as at the call site where both have length exactly `close_days`),
`is_up` is true iff `close[i] ≥ ma[i]` at every index of the window; the
two worked spec examples hold concretely. -/
theorem c4_ma_above_pred :
    (∀ (closes ma_values : List ℚ) (close_days : ℕ),
        close_days ≤ closes.length → close_days ≤ ma_values.length →
        closes.length ≤ ma_values.length →
        (closes.all fun x => decide (0 < x)) = true →
        ((check_ma_above_continuous_up closes ma_values close_days).toOption.map
            fun r => r.1) =
          some (decide (∀ i < closes.length, ma_values.getD i 0 ≤ closes.getD i 0))) ∧
      ((check_ma_above_continuous_up [10, 11, 12] [9, 10, 13] 3).toOption.map
          fun r => r.1) = some false ∧
      ((check_ma_above_continuous_up [10, 11, 12] [9, 10, 11] 3).toOption.map
          fun r => r.1) = some true := by
  refine ⟨?_, by decide, by decide⟩
  intro closes ma d h1 h2 hle hpos
  unfold check_ma_above_continuous_up
  rw [if_neg (by omega), any_nonpos_eq_false closes hpos]
  simp only [Bool.false_eq_true, if_false, if_pos hle]
  simp only [Except.toOption, Option.map_some]
  rw [zip_all_le_eq closes ma hle]
  rfl

/-- Witness for C4 at the passing spec example. -/
theorem c4_ma_above_pred_witness :
    ((check_ma_above_continuous_up [10, 11, 12] [9, 10, 11] 3).toOption.map
        fun r => r.1) =
      some (decide (∀ i < ([10, 11, 12] : List ℚ).length,
        ([9, 10, 11] : List ℚ).getD i 0 ≤ ([10, 11, 12] : List ℚ).getD i 0)) :=
  c4_ma_above_pred.1 [10, 11, 12] [9, 10, 11] 3 (by decide) (by decide) (by decide) (by decide)

/-! ## C5: multi-row header reconstruction -/

/-- C5: the two-row header whose first row is
`收盘价, blank, blank, 5日均线, blank, blank` (blank = NA, as merged
cells are read) and whose second row is the six date tokens resolves —
after horizontal forward fill — to three `收盘价_date` labels and three
`5日均线_date` labels, classified as 3 PRICE and 3 MOVING_AVERAGE
columns, each label carrying the date token of its own column. -/
theorem c5_header_resolution :
    resolveColumns
        [[some "收盘价", none, none, some "5日均线", none, none],
         [some "2024.01.01", some "2024.01.02", some "2024.01.03",
          some "2024.01.01", some "2024.01.02", some "2024.01.03"]] =
      ["收盘价_2024.01.01", "收盘价_2024.01.02", "收盘价_2024.01.03",
       "5日均线_2024.01.01", "5日均线_2024.01.02", "5日均线_2024.01.03"] ∧
      (resolveColumns
          [[some "收盘价", none, none, some "5日均线", none, none],
           [some "2024.01.01", some "2024.01.02", some "2024.01.03",
            some "2024.01.01", some "2024.01.02", some "2024.01.03"]]).map classifyLabel =
        [ColCat.price, ColCat.price, ColCat.price, ColCat.ma, ColCat.ma, ColCat.ma] := by
  constructor <;> decide

/-! ## C7: series extraction -/

/-- The appending loop equals `filterMap` over the cells. -/
theorem extractSeriesLoop_eq (cells : List (Option String)) :
    ∀ acc, extractSeriesLoop cells acc = acc ++ cells.filterMap parseCell := by
  induction cells with
  | nil => intro acc; simp [extractSeriesLoop]
  | cons c rest ih =>
    intro acc
    rw [extractSeriesLoop, List.filterMap_cons]
    cases h : parseCell c with
    | none => exact ih acc
    | some p =>
      show extractSeriesLoop rest (acc ++ [p]) = acc ++ p :: List.filterMap parseCell rest
      rw [ih (acc ++ [p]), List.append_assoc]
      rfl

/-- A kept cell value is strictly positive. -/
theorem parseCell_pos (c : Option String) (p : ℚ) (h : parseCell c = some p) : 0 < p := by
  unfold parseCell at h
  cases c with
  | none => cases h
  | some v =>
    simp only at h
    split at h
    · cases h
    · split at h
      · cases h
      · split at h
        · rename_i hpos
          cases h
          exact hpos
        · cases h

/-- C7: the built closes series is the reverse of the left-to-right scan
keeping exactly the cells that survive cleaning and parse to a strictly
positive float: index 0 is the oldest kept observation, every element is
strictly positive, invalid cells are dropped rather than zero-filled,
and a row with no valid cell yields the empty series rather than an
error. -/
theorem c7_series_builder (cells : List (Option String)) :
    extractSeries cells = (cells.filterMap parseCell).reverse ∧
      ((extractSeries cells).all fun x => decide (0 < x)) = true ∧
      ((extractSeries cells).isEmpty == (cells.filterMap parseCell).isEmpty) = true ∧
      extractSeries [] = [] := by
  have he : extractSeries cells = (cells.filterMap parseCell).reverse := by
    unfold extractSeries
    rw [extractSeriesLoop_eq cells []]
    rfl
  refine ⟨he, ?_, ?_, rfl⟩
  · rw [List.all_eq_true]
    intro x hx
    rw [he, List.mem_reverse] at hx
    obtain ⟨c, _, hc⟩ := List.mem_filterMap.mp hx
    exact decide_eq_true (parseCell_pos c x hc)
  · rw [he, beq_iff_eq]
    cases cells.filterMap parseCell with
    | nil => rfl
    | cons a l => simp

/-! ## C9: synthesized moving average -/

/-- The integer clamp of the Python slice start equals truncated natural
subtraction. -/
theorem maStart_toNat (i w : ℕ) : (max 0 ((i : ℤ) - (w : ℤ) + 1)).toNat = i + 1 - w := by
  rcases le_total 0 ((i : ℤ) - (w : ℤ) + 1) with h | h
  · rw [max_eq_right h]
    omega
  · rw [max_eq_left h]
    omega

/-- C9: with no MOVING_AVERAGE column resolved, the synthesized series
has the same length as `closes` and its value at every index `i` is the
arithmetic mean of `closes[max(0, i-w+1) .. i]` with
`w = min(5, len(closes))`; an empty closes series synthesizes an empty
series. -/
theorem c9_ma_synthesis (closes : List ℚ) :
    rowMaValues [] closes = synthesizeMA closes ∧
      synthesizeMA ([] : List ℚ) = [] ∧
      (synthesizeMA closes).length = closes.length ∧
      ((List.range closes.length).all fun i =>
          decide ((synthesizeMA closes).getD i 0 =
            qMean (pySlice closes (i + 1 - min 5 closes.length) (i + 1)))) = true := by
  refine ⟨rfl, rfl, ?_, ?_⟩
  · unfold synthesizeMA
    split
    · simp
    · rename_i hlen
      simp at hlen
      simp [hlen]
  · rw [List.all_eq_true]
    intro i hi
    rw [List.mem_range] at hi
    rw [decide_eq_true_eq]
    unfold synthesizeMA
    rw [if_pos (by omega)]
    have hlt : i < ((List.range closes.length).map fun (j : ℕ) =>
        qMean (pySlice closes (max 0 ((j : ℤ) - (min 5 closes.length : ℕ) + 1)).toNat (j + 1))).length := by
      simpa using hi
    rw [List.getD_eq_getElem _ _ hlt, List.getElem_map, List.getElem_range,
      maStart_toNat i (min 5 closes.length)]

/-! ## C1: the pass/fail conjunction -/

/-- C1: for every classification outcome the batch loop produces (series
of strictly-positive closes, `close_days ≥ 2` as the sidebar enforces),
the stock passes iff `is_up` is true AND the slope percentage is defined
AND it reaches the threshold; in particular no record with a null slope
passes. -/
theorem c1_pass_rule (mode : TrendMode) (closes ma_values : List ℚ) (close_days : ℕ)
    (slope_threshold : ℚ) (_hd : 2 ≤ close_days)
    (_hpos : (closes.all fun x => decide (0 < x)) = true) :
    ((classify mode closes ma_values close_days slope_threshold).toOption.all fun r =>
        r.passed == (r.is_up &&
          match r.slope_perc with
          | some s => decide (slope_threshold ≤ s)
          | none => false)) = true := by
  unfold classify
  split
  · simp [mkRowResult, Except.toOption]
  · cases mode with
    | strict =>
      simp only [Except.map, Except.toOption, Option.all_some]
      generalize check_strict_continuous_up (pyLastSlice closes close_days) close_days = cs
      generalize slopePerc (pyLastSlice closes close_days) = q
      rcases cs with ⟨b, det⟩
      cases b with
      | false => simp [mkRowResult]
      | true =>
        by_cases hq : q < slope_threshold
        · simp [mkRowResult, hq, not_le.mpr hq]
        · simp [mkRowResult, hq, not_lt.mp hq]
    | ma_above =>
      cases hm : check_ma_above_continuous_up (pyLastSlice closes close_days)
          (pyLastSlice ma_values close_days) close_days with
      | error e => simp [hm, Except.map, Except.toOption]
      | ok cs =>
        simp only [hm, Except.map, Except.toOption, Option.all_some]
        generalize slopePerc (pyLastSlice closes close_days) = q
        rcases cs with ⟨b, det⟩
        cases b with
        | false => simp [mkRowResult]
        | true =>
          by_cases hq : q < slope_threshold
          · simp [mkRowResult, hq, not_le.mpr hq]
          · simp [mkRowResult, hq, not_lt.mp hq]

/-- Witness for C1 at a concrete strictly-rising series. -/
theorem c1_pass_rule_witness :
    ((classify .strict [1, 2, 3, 4, 5] [1, 2, 3, 4, 5] 5 1).toOption.all fun r =>
        r.passed == (r.is_up &&
          match r.slope_perc with
          | some s => decide ((1 : ℚ) ≤ s)
          | none => false)) = true :=
  c1_pass_rule .strict [1, 2, 3, 4, 5] [1, 2, 3, 4, 5] 5 1 (by decide) (by decide)

/-! ## C2: the insufficient-data condition (corrected)

Line 524 of the source reads
`if len(closes) < close_days or len(ma_values) < close_days:` — the
moving-average length is checked in BOTH modes, not only in MA_ABOVE.
In STRICT mode a stock with enough closes but a short moving-average
series is still reported as insufficient data. -/

/-- C2 counterexample: in STRICT mode with `closes` of length 5,
`ma_values` of length 3 and `close_days = 5`, the batch loop reports the
insufficient-data outcome (`is_up = false`, slope null, reason
`数据不足: 5/5`) even though `len(closes) < close_days` is false — so the
insufficient outcome is NOT reported exactly when
`len(closes) < close_days`. -/
theorem c2_insufficient_cex :
    ((classify .strict [1, 2, 3, 4, 5] [1, 2, 3] 5 1).toOption.map fun r =>
        (r.is_up, r.slope_perc, r.up_details)) = some (false, none, "数据不足: 5/5") ∧
      ¬ ([1, 2, 3, 4, 5] : List ℚ).length < 5 := by
  constructor
  · decide
  · decide

/-- C2 (amended): in STRICT mode the insufficient-data outcome
(`is_up = false`, the `数据不足` reason built from the closes count, and
a null slope) occurs exactly when `len(closes) < close_days` OR
`len(ma_values) < close_days` — the moving-average length is checked in
both modes — and otherwise the last `close_days` elements of the closes
series are classified by `check_strict_continuous_up` and the slope of
that window is defined. -/
theorem c2_insufficient_rule (closes ma_values : List ℚ) (close_days : ℕ)
    (slope_threshold : ℚ) :
    (classify .strict closes ma_values close_days slope_threshold).toOption.isSome = true ∧
      ((classify .strict closes ma_values close_days slope_threshold).toOption.all fun r =>
        (decide (r.slope_perc = none) ==
            decide (closes.length < close_days ∨ ma_values.length < close_days)) &&
          (if closes.length < close_days ∨ ma_values.length < close_days then
            decide (r.is_up = false) &&
              decide (r.up_details =
                "数据不足: " ++ toString closes.length ++ "/" ++ toString close_days)
          else
            decide ((r.is_up, r.up_details) =
                check_strict_continuous_up (pyLastSlice closes close_days) close_days) &&
              decide (r.slope_perc =
                some (slopePerc (pyLastSlice closes close_days))))) = true := by
  unfold classify
  split
  · rename_i h
    simp [mkRowResult, Except.toOption, h]
  · rename_i h
    simp only [Except.map, Except.toOption, Option.all_some, Option.isSome_some, true_and,
      and_true]
    simp [mkRowResult, h]

/-! ## C6: batch-date selection (corrected)

The source only attempts a date parse when the label splits into more
than one `_`-segment (line 438: `if len(parts) > 1:`).  A PRICE label
without an underscore whose `" ["`-suffix hides the PRICE keyword — such
as `2024.01.01 [close]` — parses under the claim's description but is
skipped by the code, which then falls back to the current date with a
warning. -/

/-- `dateLe` is reflexive. -/
theorem dateLe_refl (a : PyDate) : dateLe a a = true := by
  simp [dateLe]

/-- `dateLt` implies `dateLe`. -/
theorem dateLt_le (a b : PyDate) (h : dateLt a b = true) : dateLe a b = true := by
  simp [dateLe, h]

/-- A failed strict comparison yields the reverse non-strict one. -/
theorem dateLt_false_le (a b : PyDate) (h : dateLt a b = false) : dateLe b a = true := by
  obtain ⟨a1, a2, a3⟩ := a
  obtain ⟨b1, b2, b3⟩ := b
  simp only [dateLt, dateLe, Bool.or_eq_true, Bool.and_eq_true, decide_eq_true_eq,
    Bool.or_eq_false_iff, Bool.and_eq_false_iff, decide_eq_false_iff_not,
    Prod.mk.injEq] at h ⊢
  omega

/-- `dateLe` is transitive. -/
theorem dateLe_trans (a b c : PyDate) (h1 : dateLe a b = true) (h2 : dateLe b c = true) :
    dateLe a c = true := by
  obtain ⟨a1, a2, a3⟩ := a
  obtain ⟨b1, b2, b3⟩ := b
  obtain ⟨c1, c2, c3⟩ := c
  simp only [dateLt, dateLe, Bool.or_eq_true, Bool.and_eq_true, decide_eq_true_eq,
    Prod.mk.injEq] at h1 h2 ⊢
  omega

/-- The fold of Python `max` yields an element of the scanned values. -/
theorem foldMax_mem (t : List PyDate) (h : PyDate) :
    t.foldl (fun cur x => if dateLt cur x then x else cur) h = h ∨
      t.foldl (fun cur x => if dateLt cur x then x else cur) h ∈ t := by
  induction t generalizing h with
  | nil => left; rfl
  | cons x t2 ih =>
    rw [List.foldl_cons]
    rcases ih (if dateLt h x then x else h) with heq | hmem
    · rw [heq]
      split
      · right; exact List.mem_cons_self x t2
      · left; rfl
    · right; exact List.mem_cons_of_mem x hmem

/-- The fold of Python `max` dominates the start value and every scanned
value. -/
theorem foldMax_ge (t : List PyDate) (h : PyDate) :
    dateLe h (t.foldl (fun cur x => if dateLt cur x then x else cur) h) = true ∧
      ∀ d ∈ t, dateLe d (t.foldl (fun cur x => if dateLt cur x then x else cur) h) = true := by
  induction t generalizing h with
  | nil => exact ⟨dateLe_refl h, by simp⟩
  | cons x t2 ih =>
    rw [List.foldl_cons]
    obtain ⟨ih1, ih2⟩ := ih (if dateLt h x then x else h)
    have hh : dateLe h (if dateLt h x then x else h) = true := by
      split
      · rename_i hlt; exact dateLt_le h x hlt
      · exact dateLe_refl h
    have hx : dateLe x (if dateLt h x then x else h) = true := by
      split
      · exact dateLe_refl x
      · rename_i hlt
        exact dateLt_false_le h x (by revert hlt; cases dateLt h x <;> simp)
    refine ⟨dateLe_trans _ _ _ hh ih1, ?_⟩
    intro d hd
    rcases List.mem_cons.mp hd with rfl | hd2
    · exact dateLe_trans _ _ _ hx ih1
    · exact ih2 d hd2

/-- The date-collection loop equals `filterMap` over the labels. -/
theorem collectBatchDates_eq (cols : List String) :
    ∀ acc, collectBatchDates cols acc = acc ++ cols.filterMap extractColDate := by
  induction cols with
  | nil => intro acc; simp [collectBatchDates]
  | cons c rest ih =>
    intro acc
    rw [collectBatchDates, List.filterMap_cons]
    cases h : extractColDate c with
    | none => exact ih acc
    | some d =>
      show collectBatchDates rest (acc ++ [d]) = acc ++ d :: List.filterMap extractColDate rest
      rw [ih (acc ++ [d]), List.append_assoc]
      rfl

/-- C6 (amended): the batch date is the maximum (in calendar order) of
the dates parsed — by the four formats in order — from the last
underscore-separated segment (with any trailing `" ["`-suffix stripped)
of each PRICE column label **that contains at least one underscore**;
labels without an underscore are skipped entirely.  When no such label
parses, the batch date is the current processing date and the warning
flag is set. -/
theorem c6_batch_date (close_cols : List String) (today : PyDate) :
    collectBatchDates close_cols [] = close_cols.filterMap extractColDate ∧
      (close_cols.filterMap extractColDate = [] →
        select_batch_date close_cols today = (formatDateISO today, true)) ∧
      ∀ m, pyMaxDate (close_cols.filterMap extractColDate) = some m →
        select_batch_date close_cols today = (formatDateISO m, false) ∧
          m ∈ close_cols.filterMap extractColDate ∧
          ∀ d ∈ close_cols.filterMap extractColDate, dateLe d m = true := by
  have hc := collectBatchDates_eq close_cols []
  simp only [List.nil_append] at hc
  refine ⟨hc, ?_, ?_⟩
  · intro hnil
    unfold select_batch_date
    rw [hc, hnil]
    rfl
  · intro m hm
    unfold select_batch_date
    rw [hc]
    cases hfm : close_cols.filterMap extractColDate with
    | nil => rw [hfm] at hm; cases hm
    | cons d0 rest =>
      rw [hfm] at hm
      unfold pyMaxDate at hm
      simp only [Option.some_inj] at hm
      subst hm
      refine ⟨rfl, ?_, ?_⟩
      · rcases foldMax_mem rest d0 with heq | hmem
        · rw [heq]; exact List.mem_cons_self d0 rest
        · exact List.mem_cons_of_mem d0 hmem
      · intro d hd
        obtain ⟨hge1, hge2⟩ := foldMax_ge rest d0
        rcases List.mem_cons.mp hd with rfl | hd2
        · exact hge1
        · exact hge2 d hd2

/-- Witness for C6 at three PRICE labels carrying three dates, the middle
one with a `" ["`-suffix. -/
theorem c6_batch_date_witness :
    select_batch_date ["收盘价_2024.01.02", "收盘价_2024.01.03 [0]", "收盘价_20240101"]
        (2030, 1, 1) = ("2024-01-03", false) :=
  ((c6_batch_date ["收盘价_2024.01.02", "收盘价_2024.01.03 [0]", "收盘价_20240101"]
      (2030, 1, 1)).2.2 (2024, 1, 3) (by decide)).1

/-- C6 counterexample: the PRICE label `2024.01.01 [close]` (classified
PRICE because its suffix contains `close`) has no underscore; per the
claim its last segment, suffix-stripped, parses to 2024-01-01, yet the
code skips it and falls back to the processing date with a warning. -/
theorem c6_no_underscore_cex :
    classifyLabel "2024.01.01 [close]" = ColCat.price ∧
      claimColDate "2024.01.01 [close]" = some (2024, 1, 1) ∧
      extractColDate "2024.01.01 [close]" = none ∧
      select_batch_date ["2024.01.01 [close]"] (2025, 10, 12) = ("2025-10-12", true) := by
  refine ⟨by decide, by decide, by decide, by decide⟩

/-! ## C8: sanitizer idempotence (corrected)

`make_arrow_safe` replaces the null markers BEFORE trimming text cells
(line 84 runs before lines 86-88), so a cell like `" - "` survives the
first pass as the marker string `"-"` and is nulled only by a second
pass: the sanitizer is not unconditionally idempotent.  It is idempotent
on every frame whose once-sanitized text cells avoid the marker set. -/

/-- The head of a `dropWhile` result falsifies the predicate. -/
theorem dropWhile_head_not (p : Char → Bool) :
    ∀ (l : List Char) (c : Char) (t : List Char), l.dropWhile p = c :: t → p c = false := by
  intro l
  induction l with
  | nil => intro c t h; cases h
  | cons a rest ih =>
    intro c t h
    rw [List.dropWhile_cons] at h
    by_cases hp : p a
    · rw [if_pos hp] at h
      exact ih c t h
    · rw [if_neg hp] at h
      cases h
      exact Bool.of_not_eq_true hp

/-- `dropWhile` is idempotent. -/
theorem dropWhile_idem (p : Char → Bool) (l : List Char) :
    (l.dropWhile p).dropWhile p = l.dropWhile p := by
  cases h : l.dropWhile p with
  | nil => rfl
  | cons c t =>
    rw [List.dropWhile_cons, dropWhile_head_not p l c t h]
    rfl

/-- The two-sided whitespace strip is idempotent. -/
theorem pyStripL_idem (l : List Char) : pyStripL (pyStripL l) = pyStripL l := by
  unfold pyStripL
  generalize hA : l.dropWhile Char.isWhitespace = A
  have h1 : ((A.reverse.dropWhile Char.isWhitespace).reverse).dropWhile Char.isWhitespace =
      (A.reverse.dropWhile Char.isWhitespace).reverse := by
    cases hR : (A.reverse.dropWhile Char.isWhitespace).reverse with
    | nil => rfl
    | cons c t =>
      have hsub : A.reverse.dropWhile Char.isWhitespace <:+ A.reverse :=
        List.dropWhile_suffix Char.isWhitespace
      have hsub2 : ((A.reverse.dropWhile Char.isWhitespace).reverse).reverse <:+ A.reverse := by
        rw [List.reverse_reverse]
        exact hsub
      have hpre : (A.reverse.dropWhile Char.isWhitespace).reverse <+: A :=
        List.reverse_suffix.mp hsub2
      obtain ⟨t2, ht2⟩ := hpre
      rw [hR] at ht2
      have hc : Char.isWhitespace c = false := by
        apply dropWhile_head_not Char.isWhitespace l c (t ++ t2)
        rw [hA, ← ht2]
        rfl
      rw [List.dropWhile_cons, hc]
      rfl
  rw [h1, List.reverse_reverse, dropWhile_idem]

/-- String-level strip idempotence. -/
theorem pyStrip_idem (s : String) : pyStrip (pyStrip s) = pyStrip s :=
  congrArg String.mk (pyStripL_idem s.data)

/-- Reduction of the marker replacement on a present cell. -/
theorem replaceMarkersCell_some (s : String) :
    replaceMarkersCell (some s) = if s ∈ null_markers then none else some s := rfl

/-- Reduction of the trim step on a present cell. -/
theorem stripCell_some (s : String) :
    stripCell (some s) =
      if pyStrip s = "nan" ∨ pyStrip s = "None" then none else some (pyStrip s) := rfl

/-- Reduction of the final cleaning step on a present cell. -/
theorem finalCleanCell_some (s : String) :
    finalCleanCell (some s) = if s = "nan" then none else some s := rfl

/-- A numeric column passes through the sanitizer unchanged. -/
theorem makeArrowSafeCol_num (label : String) (cells : List (Option ℚ)) :
    makeArrowSafeCol label (.num cells) = .num cells := by
  unfold makeArrowSafeCol numericHintCol
  rw [show stripTextCol (replaceMarkersCol (PCol.num cells)) = PCol.num cells from rfl]
  split
  · rfl
  · rfl

/-- Shape of an object cell after one sanitizer pass over a non-hint
column: missing, or a trimmed string different from the residual `nan`
and `None` literals. -/
theorem sanitizedCell_shape (c : Option String) :
    finalCleanCell (stripCell (replaceMarkersCell c)) = none ∨
      ∃ t, finalCleanCell (stripCell (replaceMarkersCell c)) = some t ∧
        pyStrip t = t ∧ t ≠ "nan" ∧ t ≠ "None" := by
  cases c with
  | none => left; rfl
  | some s =>
    rw [replaceMarkersCell_some]
    by_cases hm : s ∈ null_markers
    · rw [if_pos hm]
      left; rfl
    · rw [if_neg hm, stripCell_some]
      by_cases hn : pyStrip s = "nan" ∨ pyStrip s = "None"
      · rw [if_pos hn]
        left; rfl
      · push_neg at hn
        rw [if_neg (by tauto), finalCleanCell_some, if_neg hn.1]
        right
        exact ⟨pyStrip s, rfl, pyStrip_idem s, hn.1, hn.2⟩

/-- A cell of the shape produced by one pass, additionally not a null
marker, is a fixed point of the per-cell pipeline. -/
theorem sanitizedCell_fixed (t : String) (hfix : pyStrip t = t) (hn1 : t ≠ "nan")
    (hn2 : t ≠ "None") (hm : t ∉ null_markers) :
    finalCleanCell (stripCell (replaceMarkersCell (some t))) = some t := by
  rw [replaceMarkersCell_some, if_neg hm, stripCell_some, hfix, if_neg (by tauto),
    finalCleanCell_some, if_neg hn1]

/-- Mapping a function that fixes every member is the identity. -/
theorem map_fixes_self {α : Type} (f : α → α) :
    ∀ (l : List α), (∀ x ∈ l, f x = x) → l.map f = l := by
  intro l h
  induction l with
  | nil => rfl
  | cons a t ih =>
    rw [List.map_cons, h a (List.mem_cons_self a t), ih fun x hx => h x (List.mem_cons_of_mem a hx)]

/-- One labelled column is a fixed point of the sanitizer pass provided
its once-sanitized object cells avoid the marker set. -/
theorem makeArrowSafeCol_idem (label : String) (col : PCol)
    (hclean : colMarkerFree (makeArrowSafeCol label col) = true) :
    makeArrowSafeCol label (makeArrowSafeCol label col) = makeArrowSafeCol label col := by
  cases col with
  | num cells => rw [makeArrowSafeCol_num, makeArrowSafeCol_num]
  | obj cells =>
    by_cases hh : hasNumericHint label
    · have hnc : makeArrowSafeCol label (.obj cells) =
          PCol.num (((cells.map replaceMarkersCell).map stripCell).map fun c =>
            c.bind pyFloat) := by
        unfold makeArrowSafeCol numericHintCol
        rw [show stripTextCol (replaceMarkersCol (PCol.obj cells)) =
          PCol.obj ((cells.map replaceMarkersCell).map stripCell) from rfl, if_pos hh]
        rfl
      rw [hnc, makeArrowSafeCol_num]
    · have hout : ∀ (cl : List (Option String)), makeArrowSafeCol label (.obj cl) =
          .obj (cl.map fun c => finalCleanCell (stripCell (replaceMarkersCell c))) := by
        intro cl
        unfold makeArrowSafeCol numericHintCol
        rw [show stripTextCol (replaceMarkersCol (PCol.obj cl)) =
          PCol.obj ((cl.map replaceMarkersCell).map stripCell) from rfl, if_neg hh]
        show PCol.obj (((cl.map replaceMarkersCell).map stripCell).map finalCleanCell) = _
        rw [List.map_map, List.map_map]
        rfl
      rw [hout] at hclean
      rw [hout, hout]
      congr 1
      apply map_fixes_self
      intro c hc
      obtain ⟨c0, hc0, rfl⟩ := List.mem_map.mp hc
      rcases sanitizedCell_shape c0 with hnone | ⟨t, ht, hfix, hn1, hn2⟩
      · rw [hnone]
        rfl
      · rw [ht]
        have hmf : t ∉ null_markers := by
          unfold colMarkerFree at hclean
          have hall := List.all_eq_true.mp hclean _ hc
          rw [ht] at hall
          simpa using hall
        exact sanitizedCell_fixed t hfix hn1 hn2 hmf

/-- C8 counterexample: the one-cell frame holding `" - "` is changed by a
second sanitizer pass — the first pass trims it to the marker `"-"`,
which only the second pass nulls — so `make_arrow_safe` is not
idempotent as claimed. -/
theorem c8_idempotence_cex :
    make_arrow_safe (make_arrow_safe ⟨[("X", PCol.obj [some " - "])]⟩) ≠
      make_arrow_safe ⟨[("X", PCol.obj [some " - "])]⟩ := by
  decide

/-- C8 (amended): `make_arrow_safe` is idempotent on every frame whose
once-sanitized batch holds no null-marker string in any object cell (in
particular no text cell whose trimmed form is a marker, such as
`" - "`); numeric-hint columns are floats after one pass and text cells
are trimmed, so the second pass changes nothing. -/
theorem c8_sanitizer_idempotent (df : PFrame)
    (hclean : frameMarkerFree (make_arrow_safe df) = true) :
    make_arrow_safe (make_arrow_safe df) = make_arrow_safe df := by
  unfold make_arrow_safe frameMarkerFree at *
  simp only [List.map_map] at *
  congr 1
  apply List.map_congr_left
  intro lc hlc
  have hcl : colMarkerFree (makeArrowSafeCol lc.1 lc.2) = true := by
    have hall := List.all_eq_true.mp hclean
    have hm : (lc.1, makeArrowSafeCol lc.1 lc.2) ∈
        df.cols.map fun x => (x.1, makeArrowSafeCol x.1 x.2) :=
      List.mem_map_of_mem _ hlc
    simpa using hall _ hm
  simp only [Function.comp]
  rw [makeArrowSafeCol_idem lc.1 lc.2 hcl]

/-- Witness for C8 at a frame with a text column, a numeric-hint column
and a numeric column, all marker-free after one pass. -/
theorem c8_sanitizer_idempotent_witness :
    frameMarkerFree (make_arrow_safe ⟨[("备注", PCol.obj [some " hold ", none]),
        ("价", PCol.obj [none]), ("count", PCol.num [some 3, none])]⟩) = true ∧
      make_arrow_safe (make_arrow_safe ⟨[("备注", PCol.obj [some " hold ", none]),
          ("价", PCol.obj [none]), ("count", PCol.num [some 3, none])]⟩) =
        make_arrow_safe ⟨[("备注", PCol.obj [some " hold ", none]),
          ("价", PCol.obj [none]), ("count", PCol.num [some 3, none])]⟩ :=
  ⟨by decide, c8_sanitizer_idempotent _ (by decide)⟩
